import Mathlib

/-!
Shallow embedding of `pybit/_helpers.py`: clock-delay estimation with a
single-slot memo cache (`get_server_time_delay` under `lru_cache(maxsize=1)`),
request-timestamp generation with local-time fallback
(`generate_req_timestamp`, `generate_timestamp`), websocket endpoint routing
by URL-path comparison (`identify_ws_method`), and the supporting helpers
`find_index` and `are_connections_connected`.

Stateful Python (the process-wide memo cache, the wall clock, the per-session
fetch counters) is embedded as explicit state passing over a `World` record.
A clock reading `time.time()` is modelled as consuming the next value of an
arbitrary integer-nanosecond stream `World.clock`. Raised Python exceptions
are modelled with `Except`.
-/

namespace Pybit

/-- The JSON response of `session.get_server_time()`: `retCode`, `retMsg`,
and `result.timeNano` flattened into one record. -/
structure FetchResponse where
  retCode : Int
  retMsg : String
  timeNano : Int
deriving DecidableEq, Repr

/-- Outcome of one invocation of `session.get_server_time()`: either the call
raises (network fault) or it returns a response object. -/
inductive FetchOutcome where
  | raise (msg : String)
  | respond (r : FetchResponse)
deriving DecidableEq, Repr

/-- A session capability. `sid` is the session's identity (the `lru_cache`
key); `fetch k` is the behaviour of its `k`-th `get_server_time()` call. -/
structure Session where
  sid : Nat
  fetch : Nat → FetchOutcome

/-- Process-wide mutable state threaded through the helpers:
`clock` is the stream of nanosecond readings returned by successive
`time.time()` calls, `reads` counts clock reads so far, `cache` is the
single slot of `lru_cache(maxsize=1)` on `get_server_time_delay`
(session id paired with the cached delay), and `fetched` counts
`get_server_time()` invocations per session id. -/
structure World where
  clock : Nat → Int
  reads : Nat
  cache : Option (Nat × Int)
  fetched : Nat → Nat

/-- Read `time.time()` as integer nanoseconds: the current stream value. -/
def World.nowNanos (w : World) : Int :=
  w.clock w.reads

/-- Advance the world past one `time.time()` call. -/
def World.tick (w : World) : World :=
  { w with reads := w.reads + 1 }

/-- Record one `session.get_server_time()` invocation for session id `sid`. -/
def bumpFetch (w : World) (sid : Nat) : World :=
  { w with fetched := fun s => if s = sid then w.fetched s + 1 else w.fetched s }

/-- `lru_cache(maxsize=1)` lookup: a hit iff the single slot holds this
session's id. -/
def cacheHit (w : World) (sid : Nat) : Option Int :=
  match w.cache with
  | some (k, d) => if k = sid then some d else none
  | none => none

/-- `get_server_time_delay(session)` from `_helpers.py`, including the
`lru_cache(maxsize=1)` wrapper. On a cache hit the body does not run. On a
miss it calls `session.get_server_time()`; on `retCode == 0` it reads the
clock, computes `delay = timeNano - now`, stores it in the (single) cache
slot and returns it; on a non-zero code it raises an `Exception` whose
message embeds `retMsg`; a raise from the fetch itself is logged and
re-raised unchanged (`raise` with no argument). `lru_cache` never caches a
raised exception. -/
def get_server_time_delay (session : Session) (w : World) :
    Except String Int × World :=
  match cacheHit w session.sid with
  | some d => (.ok d, w)
  | none =>
    let outcome := session.fetch (w.fetched session.sid)
    let w1 := bumpFetch w session.sid
    match outcome with
    | .raise msg => (.error msg, w1)
    | .respond r =>
      if r.retCode = 0 then
        let delay := r.timeNano - w1.nowNanos
        (.ok delay, { w1.tick with cache := some (session.sid, delay) })
      else
        (.error ("Error retrieving Bybit server time: " ++ r.retMsg), w1)

/-- The inner helper `get_current_utc_milliseconds` of
`generate_req_timestamp`: `int(time.time() * 1000)`. `int(...)` truncates
toward zero, hence `Int.tdiv` on the nanosecond reading. -/
def get_current_utc_milliseconds (w : World) : Int × World :=
  (Int.tdiv w.nowNanos 1000000, w.tick)

/-- `generate_req_timestamp(session)` from `_helpers.py`. With a (truthy)
session it attempts `get_server_time_delay`; on success it reads the clock
and returns `(now + delay) // 1000000` (Python `//` is floor division, hence
`Int.fdiv`); on any raise from the delay lookup it logs and falls through to
the local-UTC milliseconds, as it also does when no session is given. The
outer `try/except` has no raising statements left under it, so the function
is total. -/
def generate_req_timestamp (session : Option Session) (w : World) :
    Int × World :=
  match session with
  | some s =>
    match get_server_time_delay s w with
    | (.ok delay, w1) =>
      (Int.fdiv (w1.nowNanos + delay) 1000000, w1.tick)
    | (.error _, w1) => get_current_utc_milliseconds w1
  | none => get_current_utc_milliseconds w

/-- `generate_timestamp()` from `_helpers.py`: `int(time.time() * 10**3)`. -/
def generate_timestamp (w : World) : Int × World :=
  (Int.tdiv w.nowNanos 1000000, w.tick)

/-! ## Endpoint routing: `identify_ws_method` and its regex

The pattern is `re.compile("(wss://)?([^/\s]+)(.*)")` and the code takes
`.match(url).group(3)`. URLs are embedded as `List Char`.
-/

/-- Python's `\s` on the characters that occur here: space, tab, newline,
carriage return, vertical tab, form feed. -/
def isPySpace (c : Char) : Bool :=
  c = ' ' || c = '\t' || c = '\n' || c = '\r' || c = '\x0b' || c = '\x0c'

/-- A character matchable by the host group `[^/\s]`. -/
def isHostChar (c : Char) : Bool :=
  !(c = '/') && !isPySpace c

/-- Match `([^/\s]+)(.*)` at the start of `cs` and return group 3: the host
group greedily eats the maximal nonempty run of host characters, then `.*`
(which does not cross a newline) captures the rest. `none` when the host
group cannot match. -/
def hostTail (cs : List Char) : Option (List Char) :=
  match cs with
  | [] => none
  | c :: rest =>
    if isHostChar c then
      some ((rest.dropWhile isHostChar).takeWhile (fun x => !(x = '\n')))
    else none

/-- The literal characters of `wss://`. -/
def wssMarker : List Char := ['w', 's', 's', ':', '/', '/']

/-- Whether the host group `[^/\s]+` can start matching at the head of the
string. -/
def headIsHost : List Char → Bool
  | c :: _ => isHostChar c
  | [] => false

/-- `group(3)` of `re.match("(wss://)?([^/\s]+)(.*)", url)`, `none` when the
whole match fails. The optional group is greedy: it consumes a leading
`wss://` when the host group can still match after it; otherwise the engine
backtracks and the host group starts at the beginning of the string. -/
def group3 (cs : List Char) : Option (List Char) :=
  if cs.take 6 = wssMarker ∧ headIsHost (cs.drop 6) then
    hostTail (cs.drop 6)
  else
    hostTail cs

/-- The loop of `identify_ws_method`: for each `(wss_url, function_call)` in
the dictionary, extract the key's path; comparing against the target path
`p`, return the first bound handler whose path equals `p`. A key on which
the regex match fails raises (`.group` on `None`), modelled as
`.error ()`. Falling off the loop returns Python `None`: `.ok none`. -/
def identifyLoop {H : Type} (p : List Char) :
    List (List Char × H) → Except Unit (Option H)
  | [] => .ok none
  | (url, f) :: rest =>
    match group3 url with
    | none => .error ()
    | some q => if p = q then .ok (some f) else identifyLoop p rest

/-- `identify_ws_method(input_wss_url, wss_dictionary)` from `_helpers.py`.
Extract the target's path via `group3`; a failed match raises
(`AttributeError` on `None.group`), modelled as `.error ()`. -/
def identify_ws_method {H : Type} (input : List Char)
    (dict : List (List Char × H)) : Except Unit (Option H) :=
  match group3 input with
  | none => .error ()
  | some p => identifyLoop p dict

/-- Modelled from the spec (for comparison with `group3` only): the spec's
PathComponent "the suffix of a URL after scheme and host", via the
decomposition `(scheme)?(host)(path)` where the scheme is generic — a
nonempty run of letters followed by `://` (e.g. `wss://`, `https://`) — and
the host is the maximal nonempty run of host characters after it. -/
def specPathComponent (cs : List Char) : Option (List Char) :=
  let letters := cs.takeWhile Char.isAlpha
  let rest := cs.dropWhile Char.isAlpha
  if !letters.isEmpty && rest.take 3 = [':', '/', '/'] then
    hostTail (rest.drop 3)
  else
    hostTail cs

/-! ## Supporting helpers -/

/-- The search of `find_index`: index of the first record whose value at the
key equals the target value `t`. -/
def findFirst {R V : Type} [DecidableEq V] (t : V) (key : R → V) :
    List R → Option Nat
  | [] => none
  | j :: rest =>
    if key j = t then some 0 else (findFirst t key rest).map (· + 1)

/-- `find_index(source, target, key)` from `_helpers.py`:
`next(i for i, j in enumerate(source) if j[key] == target[key])`. Record
subscripting `j[key]` is embedded as applying a projection `key : R → V`.
An exhausted generator makes `next` raise `StopIteration`: `.error ()`. -/
def find_index {R V : Type} [DecidableEq V] (source : List R) (target : R)
    (key : R → V) : Except Unit Nat :=
  match findFirst (key target) key source with
  | some i => .ok i
  | none => .error ()

/-- A streaming connection capability: an identity and the value its
`is_connected()` reports. -/
structure Conn where
  cid : Nat
  connected : Bool
deriving DecidableEq, Repr

/-- `are_connections_connected(active_connections)` from `_helpers.py`,
instrumented: the second component records, in order, the ids of the
connections whose `is_connected()` was invoked. The loop returns `False` at
the first disconnected connection and `True` after the last one. -/
def are_connections_connected : List Conn → Bool × List Nat
  | [] => (true, [])
  | c :: rest =>
    if c.connected then
      let r := are_connections_connected rest
      (r.1, c.cid :: r.2)
    else
      (false, [c.cid])

/-! ## Concrete instances used to evaluate the helpers on closed inputs -/

/-- A failure predicate on one fetch outcome: the call raised, or it
returned a response with a non-zero `retCode`. -/
def fetchFails : FetchOutcome → Prop
  | .raise _ => True
  | .respond r => r.retCode ≠ 0

/-- A session (id 0) whose every fetch succeeds with `timeNano = 100`. -/
def sessA : Session := ⟨0, fun _ => .respond ⟨0, "A", 100⟩⟩

/-- A second session (id 1) whose every fetch succeeds with
`timeNano = 50`. -/
def sessB : Session := ⟨1, fun _ => .respond ⟨0, "B", 50⟩⟩

/-- A session (id 0) whose every fetch returns `retCode = 10001`. -/
def failSess : Session := ⟨0, fun _ => .respond ⟨10001, "invalid request", 0⟩⟩

/-- A session (id 0) whose every fetch raises. -/
def raiseSess : Session := ⟨0, fun _ => .raise "connection reset"⟩

/-- An initial world: the `k`-th clock reading is `k` nanoseconds, the cache
is empty, no fetches have happened. -/
def w0 : World := ⟨fun k => (k : Int), 0, none, fun _ => 0⟩

/-- The world after a first `get_server_time_delay` call with `sessA`. -/
def w1 : World := (get_server_time_delay sessA w0).2

/-- The world after a further `get_server_time_delay` call with `sessB`:
the single cache slot now holds session B's delay, evicting session A's. -/
def w2 : World := (get_server_time_delay sessB w1).2

/-- The session of the spec's clock scenario: its fetch reports
`timeNano = 1_700_000_000_500_000_000`. -/
def scenSess : Session :=
  ⟨0, fun _ => .respond ⟨0, "", 1700000000500000000⟩⟩

/-- The world of the spec's clock scenario: the first clock reading is
`1_700_000_000_000_000_000` ns, later readings are
`1_700_000_123_000_000_000` ns. -/
def scenW0 : World :=
  ⟨fun k => if k = 0 then 1700000000000000000 else 1700000123000000000,
   0, none, fun _ => 0⟩

/-- The scenario world after `get_server_time_delay scenSess`: the cache
holds delay `500_000_000` ns for session 0. -/
def scenW : World := (get_server_time_delay scenSess scenW0).2

/-- A world whose cached delay for session 0 is `-1` ns and whose clock
reads 0 ns: exercises Python floor division on a negative sum. -/
def negW : World := ⟨fun _ => 0, 0, some (0, -1), fun _ => 0⟩

/-! ## Theorems -/

/-- Claim C9: `are_connections_connected` returns true iff every connection
in the sequence reports `is_connected()` true (so true on the empty list and
false whenever some member is disconnected), and the connections whose
`is_connected()` is invoked are exactly those up to and including the first
disconnected one, in sequence order — no later connection is queried. -/
theorem are_connections_connected_spec (cs : List Conn) :
    (are_connections_connected cs).1 = cs.all (fun c => c.connected)
    ∧ (are_connections_connected cs).2 =
        (cs.takeWhile (fun c => c.connected)).map Conn.cid ++
          ((cs.dropWhile (fun c => c.connected)).head?.map Conn.cid).toList := by
  induction cs with
  | nil => exact ⟨rfl, rfl⟩
  | cons c rest ih =>
    cases hc : c.connected with
    | true =>
      refine ⟨?_, ?_⟩
      · simp [are_connections_connected, hc, ih.1]
      · simp [are_connections_connected, hc, ih.2, List.takeWhile_cons,
          List.dropWhile_cons]
    | false =>
      refine ⟨?_, ?_⟩
      · simp [are_connections_connected, hc]
      · simp [are_connections_connected, hc, List.takeWhile_cons,
          List.dropWhile_cons]

/-- `findFirst` returns `none` exactly when no record's key value equals the
target value. -/
theorem findFirst_eq_none_iff {R V : Type} [DecidableEq V] (t : V)
    (key : R → V) (l : List R) :
    findFirst t key l = none ↔ ∀ j ∈ l, key j ≠ t := by
  induction l with
  | nil => simp [findFirst]
  | cons j rest ih =>
    by_cases h : key j = t
    · simp [findFirst, h]
    · simp [findFirst, h, ih]

/-- When `findFirst` returns an index, it is a valid index whose record
matches, and no earlier record matches. -/
theorem findFirst_eq_some {R V : Type} [DecidableEq V] (t : V)
    (key : R → V) (l : List R) (i : Nat) (h : findFirst t key l = some i) :
    ∃ hi : i < l.length,
      key (l.get ⟨i, hi⟩) = t
      ∧ ∀ k, ∀ hk : k < l.length, k < i → key (l.get ⟨k, hk⟩) ≠ t := by
  induction l generalizing i with
  | nil => simp [findFirst] at h
  | cons j rest ih =>
    by_cases hj : key j = t
    · simp only [findFirst, if_pos hj, Option.some.injEq] at h
      subst h
      exact ⟨Nat.succ_pos _, hj, fun k hk hki => absurd hki (Nat.not_lt_zero k)⟩
    · simp only [findFirst, if_neg hj, Option.map_eq_some'] at h
      obtain ⟨a, ha, rfl⟩ := h
      obtain ⟨hia, hmatch, hbefore⟩ := ih a ha
      refine ⟨Nat.succ_lt_succ hia, hmatch, ?_⟩
      intro k hk hki
      cases k with
      | zero => simpa using hj
      | succ k' =>
        exact hbefore k' (Nat.lt_of_succ_lt_succ hk) (Nat.lt_of_succ_lt_succ hki)

/-- Claim C8: `find_index` returns the position of the first record in the
list whose value at the key equals the target's value at that key; when some
record matches it returns an index, and when no record matches it raises
(`StopIteration` from the exhausted generator), modelled as `.error ()`. -/
theorem find_index_spec {R V : Type} [DecidableEq V] (source : List R)
    (target : R) (key : R → V) :
    (∀ i, find_index source target key = .ok i →
        ∃ hi : i < source.length,
          key (source.get ⟨i, hi⟩) = key target
          ∧ ∀ k, ∀ hk : k < source.length, k < i →
              key (source.get ⟨k, hk⟩) ≠ key target)
    ∧ ((∃ j ∈ source, key j = key target) →
        ∃ i, find_index source target key = .ok i)
    ∧ ((∀ j ∈ source, key j ≠ key target) →
        find_index source target key = .error ()) := by
  refine ⟨?_, ?_, ?_⟩
  · intro i h
    unfold find_index at h
    cases hf : findFirst (key target) key source with
    | none => rw [hf] at h; exact absurd h (by simp)
    | some a =>
      rw [hf] at h
      simp only [Except.ok.injEq] at h
      subst h
      exact findFirst_eq_some (key target) key source a hf
  · intro hex
    unfold find_index
    cases hf : findFirst (key target) key source with
    | none =>
      obtain ⟨j, hj, hjt⟩ := hex
      exact absurd hjt ((findFirst_eq_none_iff (key target) key source).1 hf j hj)
    | some a => exact ⟨a, rfl⟩
  · intro hall
    unfold find_index
    rw [(findFirst_eq_none_iff (key target) key source).2 hall]

/-- Witness for C8 at a concrete input: in `[5, 3, 3]` with target `3` under
the identity key, the first match is at index 1, earlier entries do not
match, and a match exists. -/
theorem find_index_spec_witness :
    (∃ hi : 1 < ([5, 3, 3] : List Nat).length,
        ([5, 3, 3] : List Nat).get ⟨1, hi⟩ = 3
        ∧ ∀ k, ∀ hk : k < ([5, 3, 3] : List Nat).length, k < 1 →
            ([5, 3, 3] : List Nat).get ⟨k, hk⟩ ≠ 3)
    ∧ ∃ i, find_index ([5, 3, 3] : List Nat) 3 (fun n => n) = .ok i :=
  ⟨(find_index_spec ([5, 3, 3] : List Nat) 3 (fun n => n)).1 1 rfl,
   (find_index_spec ([5, 3, 3] : List Nat) 3 (fun n => n)).2.1
     ⟨3, by simp, rfl⟩⟩

/-- Claim C6: when the target URL's extracted path differs from the
extracted path of every key in the dictionary, `identify_ws_method` falls
off its loop and returns Python `None` (`.ok none`) — the no-match outcome —
rather than any handler. -/
theorem identify_ws_method_no_match {H : Type} (t p : List Char)
    (dict : List (List Char × H)) (ht : group3 t = some p)
    (hnone : ∀ kv ∈ dict, ∃ q, group3 kv.1 = some q ∧ q ≠ p) :
    identify_ws_method t dict = .ok none := by
  unfold identify_ws_method
  rw [ht]
  induction dict with
  | nil => rfl
  | cons kv rest ih =>
    obtain ⟨q, hq, hqp⟩ := hnone kv (by simp)
    obtain ⟨url, f⟩ := kv
    simp only [identifyLoop]
    rw [hq]
    simp only [if_neg (Ne.symm hqp)]
    exact ih fun kv' hkv' => hnone kv' (List.mem_cons_of_mem _ hkv')

/-- Witness for C6 at a concrete input: routing `wss://a/x` through a table
whose only key has path `/y` returns `.ok none`. -/
theorem identify_ws_method_no_match_witness :
    identify_ws_method ("wss://a/x".toList)
        [("wss://b/y".toList, (0 : Nat))] = .ok none :=
  identify_ws_method_no_match ("wss://a/x".toList) ("/x".toList)
    [("wss://b/y".toList, (0 : Nat))] rfl
    (fun kv hkv => by
      rw [List.mem_singleton] at hkv
      subst hkv
      exact ⟨"/y".toList, rfl, by decide⟩)

/-- Claim C10: a target on which the host group of the regex cannot match —
the empty string, or one whose first character is `/` or whitespace — makes
`re.match` return `None`, so `.group(3)` raises (`AttributeError`), modelled
as `.error ()`: such inputs are never routed, whatever the table holds. -/
theorem identify_ws_method_unmatchable_raises {H : Type} (t : List Char)
    (dict : List (List Char × H))
    (h : t = [] ∨ ∃ c rest, t = c :: rest ∧ isHostChar c = false) :
    identify_ws_method t dict = .error () := by
  have hg : group3 t = none := by
    rcases h with rfl | ⟨c, rest, rfl, hc⟩
    · rfl
    · have hw : ¬((c :: rest).take 6 = wssMarker ∧ headIsHost ((c :: rest).drop 6)) := by
        rintro ⟨h6, -⟩
        rw [List.take_succ_cons, wssMarker] at h6
        have hcw : c = 'w' := (List.cons.injEq _ _ _ _).mp h6 |>.1
        rw [hcw] at hc
        exact absurd hc (by decide)
      unfold group3
      rw [if_neg hw]
      simp [hostTail, hc]
  unfold identify_ws_method
  rw [hg]

/-- Witness for C10 at the concrete input from the claim: the path-only URL
`/v5/public/spot` raises even though the table's only key has exactly that
extracted path. -/
theorem identify_ws_method_unmatchable_raises_witness :
    group3 ("wss://stream.bybit.com/v5/public/spot".toList)
        = some ("/v5/public/spot".toList)
    ∧ identify_ws_method ("/v5/public/spot".toList)
        [("wss://stream.bybit.com/v5/public/spot".toList, (0 : Nat))]
        = .error () :=
  ⟨by decide,
   identify_ws_method_unmatchable_raises ("/v5/public/spot".toList)
     [("wss://stream.bybit.com/v5/public/spot".toList, (0 : Nat))]
     (Or.inr ⟨'/', "v5/public/spot".toList, rfl, by decide⟩)⟩

/-- Claim C2 (amended): two URLs with equal extracted paths — the extraction
strips only a literal `wss://` scheme — are interchangeable for
`identify_ws_method` over every table, and when one of the pair is a table
key preceded only by parseable keys of different paths, resolving the other
returns that key's bound handler. -/
theorem identify_ws_method_same_path {H : Type} (u1 u2 p : List Char)
    (h : H) (h1 : group3 u1 = some p) (h2 : group3 u2 = some p) :
    (∀ dict : List (List Char × H),
        identify_ws_method u1 dict = identify_ws_method u2 dict)
    ∧ ∀ d1 d2 : List (List Char × H),
        (∀ kv ∈ d1, ∃ q, group3 kv.1 = some q ∧ q ≠ p) →
          identify_ws_method u2 (d1 ++ (u1, h) :: d2) = .ok (some h) := by
  constructor
  · intro dict
    unfold identify_ws_method
    rw [h1, h2]
  · intro d1 d2 hpre
    unfold identify_ws_method
    rw [h2]
    induction d1 with
    | nil =>
      simp only [List.nil_append, identifyLoop]
      rw [h1]
      simp
    | cons kv rest ih =>
      obtain ⟨q, hq, hqp⟩ := hpre kv (by simp)
      obtain ⟨url, f⟩ := kv
      simp only [List.cons_append, identifyLoop]
      rw [hq]
      simp only [if_neg (Ne.symm hqp)]
      exact ih fun kv' hkv' => hpre kv' (List.mem_cons_of_mem _ hkv')

/-- Witness for C2 at the spec's scenario: with table
`{wss://a.x/v5/public/spot ↦ 1, wss://a.x/v5/public/linear ↦ 2}`, the target
`wss://b.x/v5/public/linear` resolves to handler 2, across hosts. -/
theorem identify_ws_method_same_path_witness :
    identify_ws_method ("wss://b.x/v5/public/linear".toList)
        [("wss://a.x/v5/public/spot".toList, (1 : Nat)),
         ("wss://a.x/v5/public/linear".toList, (2 : Nat))]
      = .ok (some 2) :=
  (identify_ws_method_same_path
      ("wss://a.x/v5/public/linear".toList)
      ("wss://b.x/v5/public/linear".toList)
      ("/v5/public/linear".toList) (2 : Nat) (by decide) (by decide)).2
    [("wss://a.x/v5/public/spot".toList, (1 : Nat))] []
    (fun kv hkv => by
      rw [List.mem_singleton] at hkv
      subst hkv
      exact ⟨"/v5/public/spot".toList, by decide, by decide⟩)

/-- Counterexample for C2 as stated: `wss://a.x/v5/public/spot` and
`https://b.x/v5/public/spot` have identical PathComponents under the spec's
`(scheme)?(host)(path)` decomposition, yet the code strips only `wss://`,
extracts `//b.x/v5/public/spot` for the https URL, and fails to return the
handler bound to the wss key — it returns `.ok none`. -/
theorem identify_ws_method_same_path_cex :
    specPathComponent ("wss://a.x/v5/public/spot".toList)
        = specPathComponent ("https://b.x/v5/public/spot".toList)
    ∧ identify_ws_method ("https://b.x/v5/public/spot".toList)
        [("wss://a.x/v5/public/spot".toList, (1 : Nat))] = .ok none
    ∧ identify_ws_method ("https://b.x/v5/public/spot".toList)
        [("wss://a.x/v5/public/spot".toList, (1 : Nat))] ≠ .ok (some 1) := by
  have hv : identify_ws_method ("https://b.x/v5/public/spot".toList)
      [("wss://a.x/v5/public/spot".toList, (1 : Nat))] = .ok none := rfl
  refine ⟨by decide, hv, ?_⟩
  intro hEq
  rw [hv] at hEq
  simp at hEq

/-- Claim C1 (amended): for a session whose fetch responses all have code 0,
two consecutive `get_server_time_delay` calls for that session — with no
intervening call for a different session — return the same successful delay,
and the session's fetch runs at most once across the pair. The multi-session
part of the claim fails: the cache is `lru_cache(maxsize=1)`, one slot for
the whole process, so a call with a different session evicts the entry. -/
theorem get_server_time_delay_cache_idempotent (s : Session) (w : World)
    (hs : ∀ k, ∃ r, s.fetch k = .respond r ∧ r.retCode = 0) :
    ∃ d, (get_server_time_delay s w).1 = .ok d
      ∧ (get_server_time_delay s (get_server_time_delay s w).2).1 = .ok d
      ∧ (get_server_time_delay s (get_server_time_delay s w).2).2.fetched s.sid
          ≤ w.fetched s.sid + 1 := by
  cases hc : cacheHit w s.sid with
  | some d =>
    have h1 : get_server_time_delay s w = (.ok d, w) := by
      unfold get_server_time_delay
      rw [hc]
    rw [h1]
    rw [h1]
    exact ⟨d, rfl, rfl, Nat.le_succ _⟩
  | none =>
    obtain ⟨r, hr, hcode⟩ := hs (w.fetched s.sid)
    have h1 : get_server_time_delay s w =
        (.ok (r.timeNano - (bumpFetch w s.sid).nowNanos),
         { (bumpFetch w s.sid).tick with
             cache := some (s.sid, r.timeNano - (bumpFetch w s.sid).nowNanos) }) := by
      simp [get_server_time_delay, hc, hr, hcode]
    rw [h1]
    have h2 : get_server_time_delay s
        { (bumpFetch w s.sid).tick with
            cache := some (s.sid, r.timeNano - (bumpFetch w s.sid).nowNanos) } =
        (.ok (r.timeNano - (bumpFetch w s.sid).nowNanos),
         { (bumpFetch w s.sid).tick with
             cache := some (s.sid, r.timeNano - (bumpFetch w s.sid).nowNanos) }) := by
      simp [get_server_time_delay, cacheHit]
    rw [h2]
    refine ⟨r.timeNano - (bumpFetch w s.sid).nowNanos, rfl, rfl, ?_⟩
    simp [bumpFetch, World.tick]

/-- Witness for C1's amended theorem at a concrete input: session `sessA`
on the initial world `w0`. -/
theorem get_server_time_delay_cache_idempotent_witness :
    ∃ d, (get_server_time_delay sessA w0).1 = .ok d
      ∧ (get_server_time_delay sessA (get_server_time_delay sessA w0).2).1 = .ok d
      ∧ (get_server_time_delay sessA
            (get_server_time_delay sessA w0).2).2.fetched sessA.sid
          ≤ w0.fetched sessA.sid + 1 :=
  get_server_time_delay_cache_idempotent sessA w0
    (fun _ => ⟨⟨0, "A", 100⟩, rfl, by decide⟩)

/-- Counterexample for C1 as stated: interleaving sessions A, B, A (all with
code-0 responses) defeats the single-slot `lru_cache(maxsize=1)`. The call
for session B evicts A's entry, so the third call fetches for A a second
time (A's fetch count reaches 2, not at most 1) and returns a delay
different from A's first cached delay. -/
theorem get_server_time_delay_multisession_cex :
    (get_server_time_delay sessA w2).2.fetched 0 = 2
    ∧ (get_server_time_delay sessA w2).1 = .ok 98
    ∧ (get_server_time_delay sessA w0).1 = .ok 100 := by
  refine ⟨rfl, rfl, rfl⟩

/-- Claim C5: on a cache miss for a session whose fetches fail,
`get_server_time_delay` raises — with the original exception when the fetch
itself raised (the bare `raise` re-raises the cause), or with a message
embedding the server-reported `retMsg` when `retCode` was non-zero — it
leaves the cache untouched (`lru_cache` never stores a raised call), and a
further call for the same session invokes the fetch again: the fetch count
rises by two across the two calls. -/
theorem get_server_time_delay_failure (s : Session) (w : World)
    (hmiss : cacheHit w s.sid = none)
    (hfail : ∀ k, fetchFails (s.fetch k)) :
    (match s.fetch (w.fetched s.sid) with
     | .raise m => (get_server_time_delay s w).1 = .error m
     | .respond r =>
         (get_server_time_delay s w).1
           = .error ("Error retrieving Bybit server time: " ++ r.retMsg))
    ∧ (get_server_time_delay s w).2.cache = w.cache
    ∧ (get_server_time_delay s (get_server_time_delay s w).2).2.fetched s.sid
        = w.fetched s.sid + 2 := by
  have hone : ∀ w' : World, cacheHit w' s.sid = none →
      (match s.fetch (w'.fetched s.sid) with
       | .raise m => (get_server_time_delay s w').1 = .error m
       | .respond r =>
           (get_server_time_delay s w').1
             = .error ("Error retrieving Bybit server time: " ++ r.retMsg))
      ∧ (get_server_time_delay s w').2 = bumpFetch w' s.sid := by
    intro w' hm
    cases ho : s.fetch (w'.fetched s.sid) with
    | raise m =>
      have h1 : get_server_time_delay s w' = (.error m, bumpFetch w' s.sid) := by
        simp [get_server_time_delay, hm, ho]
      rw [h1]
      exact ⟨rfl, rfl⟩
    | respond r =>
      have hr : r.retCode ≠ 0 := by
        have := hfail (w'.fetched s.sid)
        rw [ho] at this
        exact this
      have h1 : get_server_time_delay s w' =
          (.error ("Error retrieving Bybit server time: " ++ r.retMsg),
           bumpFetch w' s.sid) := by
        simp [get_server_time_delay, hm, ho, hr]
      rw [h1]
      exact ⟨rfl, rfl⟩
  obtain ⟨hmsg, hst⟩ := hone w hmiss
  have hmiss2 : cacheHit (bumpFetch w s.sid) s.sid = none := hmiss
  obtain ⟨-, hst2⟩ := hone (bumpFetch w s.sid) hmiss2
  refine ⟨hmsg, by rw [hst]; rfl, ?_⟩
  rw [hst, hst2]
  simp [bumpFetch]

/-- Witness for C5 at a concrete input: `failSess` (every fetch returns
`retCode = 10001`, `retMsg = "invalid request"`) on the initial world
`w0`. -/
theorem get_server_time_delay_failure_witness :
    (get_server_time_delay failSess w0).1
        = .error ("Error retrieving Bybit server time: " ++ "invalid request")
    ∧ (get_server_time_delay failSess w0).2.cache = w0.cache
    ∧ (get_server_time_delay failSess
          (get_server_time_delay failSess w0).2).2.fetched failSess.sid
        = w0.fetched failSess.sid + 2 :=
  get_server_time_delay_failure failSess w0 rfl
    (fun _ => (by decide : (10001 : Int) ≠ 0))

/-- Claim C4: on a cache miss for a session whose fetch raises or returns a
non-zero code, `generate_req_timestamp` silently falls back to the
local-UTC-derived millisecond timestamp. The failing paths read no clock, so
the fallback consumes exactly the clock reading that `generate_timestamp`
would at the same instant: the two results are equal. -/
theorem generate_req_timestamp_fallback (s : Session) (w : World)
    (hmiss : cacheHit w s.sid = none)
    (hfail : fetchFails (s.fetch (w.fetched s.sid))) :
    (generate_req_timestamp (some s) w).1 = (generate_timestamp w).1 := by
  cases ho : s.fetch (w.fetched s.sid) with
  | raise m =>
    have h1 : get_server_time_delay s w = (.error m, bumpFetch w s.sid) := by
      simp [get_server_time_delay, hmiss, ho]
    simp only [generate_req_timestamp, h1]
    rfl
  | respond r =>
    have hr : r.retCode ≠ 0 := by
      rw [ho] at hfail
      exact hfail
    have h1 : get_server_time_delay s w =
        (.error ("Error retrieving Bybit server time: " ++ r.retMsg),
         bumpFetch w s.sid) := by
      simp [get_server_time_delay, hmiss, ho, hr]
    simp only [generate_req_timestamp, h1]
    rfl

/-- Witness for C4 at a concrete input: `raiseSess` (every fetch raises) on
the initial world `w0`. -/
theorem generate_req_timestamp_fallback_witness :
    (generate_req_timestamp (some raiseSess) w0).1 = (generate_timestamp w0).1 :=
  generate_req_timestamp_fallback raiseSess w0 rfl trivial

/-- Claim C3: `generate_req_timestamp` is total — in the embedding it
returns an integer on every input, with no raising path left unhandled —
and case-complete: with no session it returns the local-UTC milliseconds
(the value of `generate_timestamp` at the same instant); with a session it
returns the server-adjusted `(now + delay) // 10^6` when the delay lookup
succeeds and the local-UTC milliseconds when the lookup raises. -/
theorem generate_req_timestamp_total (w : World) :
    ((generate_req_timestamp none w).1 = (generate_timestamp w).1)
    ∧ (∀ s d, (get_server_time_delay s w).1 = .ok d →
        (generate_req_timestamp (some s) w).1
          = Int.fdiv ((get_server_time_delay s w).2.nowNanos + d) 1000000)
    ∧ (∀ s e, (get_server_time_delay s w).1 = .error e →
        (generate_req_timestamp (some s) w).1
          = (generate_timestamp (get_server_time_delay s w).2).1) := by
  refine ⟨rfl, ?_, ?_⟩
  · intro s d hd
    rcases h : get_server_time_delay s w with ⟨r, wAfter⟩
    rw [h] at hd
    simp only at hd
    subst hd
    simp only [generate_req_timestamp, h]
  · intro s e he
    rcases h : get_server_time_delay s w with ⟨r, wAfter⟩
    rw [h] at he
    simp only at he
    subst he
    simp only [generate_req_timestamp, h]
    rfl

/-- Witness for C3 at concrete inputs: no session on `w0`, a succeeding
session (`sessA`, delay 100) on `w0`, and a failing session (`failSess`)
on `w0`. -/
theorem generate_req_timestamp_total_witness :
    ((generate_req_timestamp none w0).1 = (generate_timestamp w0).1)
    ∧ (generate_req_timestamp (some sessA) w0).1
        = Int.fdiv ((get_server_time_delay sessA w0).2.nowNanos + 100) 1000000
    ∧ (generate_req_timestamp (some failSess) w0).1
        = (generate_timestamp (get_server_time_delay failSess w0).2).1 :=
  ⟨(generate_req_timestamp_total w0).1,
   (generate_req_timestamp_total w0).2.1 sessA 100 rfl,
   (generate_req_timestamp_total w0).2.2 failSess
     ("Error retrieving Bybit server time: " ++ "invalid request") rfl⟩

/-- Claim C7 (amended): with a delay `d` cached for the session,
`generate_req_timestamp` reads the clock once — call the reading `T` ns —
and returns `(T + d) // 1_000_000` where `//` is Python floor division
(rounding toward negative infinity, `Int.fdiv`). Floor coincides with the
claim's "truncating" division whenever `T + d ≥ 0`, but not on negative
sums. -/
theorem generate_req_timestamp_cached (s : Session) (w : World) (d : Int)
    (hcache : w.cache = some (s.sid, d)) :
    (generate_req_timestamp (some s) w).1 = Int.fdiv (w.nowNanos + d) 1000000 := by
  have h1 : get_server_time_delay s w = (.ok d, w) := by
    simp [get_server_time_delay, cacheHit, hcache]
  simp only [generate_req_timestamp, h1]

/-- Witness for C7's amended theorem at the spec's scenario: the fetch
measures server time `1_700_000_000_500_000_000` ns against local time
`1_700_000_000_000_000_000` ns, caching delay `500_000_000` ns; a subsequent
call at local time `1_700_000_123_000_000_000` ns returns
`(T + 500_000_000) // 10^6 = 1_700_000_123_500` ms. -/
theorem generate_req_timestamp_cached_witness :
    scenW.cache = some (0, 500000000)
    ∧ (generate_req_timestamp (some scenSess) scenW).1
        = Int.fdiv (scenW.nowNanos + 500000000) 1000000
    ∧ Int.fdiv (scenW.nowNanos + 500000000) 1000000 = 1700000123500 :=
  ⟨rfl,
   generate_req_timestamp_cached scenSess scenW 500000000 rfl,
   by decide⟩

/-- Counterexample for C7 as stated: with cached delay `d = -1` ns and a
clock reading of `T = 0` ns, the code returns `(0 + -1) // 10^6 = -1`
(Python floor division), while truncating integer division of the sum
would give `0`. -/
theorem generate_req_timestamp_cached_cex :
    (generate_req_timestamp (some raiseSess) negW).1 = -1
    ∧ Int.tdiv (negW.nowNanos + -1) 1000000 = 0
    ∧ (generate_req_timestamp (some raiseSess) negW).1
        ≠ Int.tdiv (negW.nowNanos + -1) 1000000 := by
  refine ⟨rfl, by decide, by decide⟩

end Pybit
